import Mathlib

/-!
A shallow embedding of `trippy/bgFinder.py` (the `bgFinder` class): background
estimators over a flattened numeric sample, an adaptive estimator, and the
string dispatcher `__call__`.

Numeric values are modelled exactly: the sample is a `List ℚ` (every float is a
rational) and the combinatorial estimators (`median`, `mean`, `_ahist`/`_stats`,
`_fraserMode`) are computed in exact rational arithmetic.  The Gaussian
log-likelihood `_gaussLike` uses `log`/`**0.5`, so that part is embedded over
`ℝ`.  The external optimizer `scipy.optimize.fmin` is abstracted as a function
parameter `fmin`; `scipy.stats.mode` and the numpy primitives (`sort`,
`median`, `mean`, `std`, `argmax`, `arange`, `searchsorted`) are embedded by
their documented semantics.
-/

/-- numpy `astype(int)` on a float value: truncating cast, rounds toward zero. -/
def truncQ (q : ℚ) : ℤ := if 0 ≤ q then ⌊q⌋ else ⌈q⌉

/-- `num.sort(data)`: the sample in nondecreasing order. -/
def npSort (l : List ℚ) : List ℚ := List.insertionSort (· ≤ ·) l

/-- `num.median(data)`: middle element of the sorted data for odd length, the
average of the two middle elements for even length. -/
def npMedian (data : List ℚ) : ℚ :=
  let b := npSort data
  let n := data.length
  if n % 2 = 1 then b.getD (n / 2) 0
  else (b.getD (n / 2 - 1) 0 + b.getD (n / 2) 0) / 2

/-- `num.mean(data)`. -/
def npMean (data : List ℚ) : ℚ := data.sum / data.length

/-- `scipy.stats.mode(y)[0]`: the most frequent value; on a tie for the maximal
multiplicity the smallest such value (scipy takes the argmax over the sorted
unique values). -/
def statsMode (ys : List ℤ) : ℤ :=
  ((List.insertionSort (· ≤ ·) ys).filter
    (fun v => ys.all (fun u => ys.count u ≤ ys.count v))).headD 0

/-- `_fraserMode(multi)`: quantize `data*multi` by truncating cast, take the
`scipy.stats.mode` of the quantized values, collect the indices where the
quantized value equals that mode (`num.where`), and return the median of the
original values at those indices. -/
def fraserMode (data : List ℚ) (multi : ℚ) : ℚ :=
  let y := data.map (fun v => truncQ (v * multi))
  let mode := statsMode y
  let w := (List.range data.length).filter (fun i => y.getD i 0 = mode)
  npMedian (w.map (fun i => data.getD i 0))

/-- `num.searchsorted(b, v)` with side `left`, for `b` sorted (as in `_ahist`,
where `b = num.sort(self.data)`): the insertion index, i.e. the number of
entries strictly below `v`. -/
def searchsorted (b : List ℚ) (v : ℚ) : ℕ := b.countP (fun x => x < v)

/-- `num.arange(mn, mx, st)` for a positive step: `mn, mn+st, mn+2*st, ...`
with length `⌈(mx-mn)/st⌉` (empty when `mx ≤ mn`). -/
def npArange (mn mx st : ℚ) : List ℚ :=
  if 0 < st then
    (List.range (Int.toNat ⌈(mx - mn) / st⌉)).map (fun k : ℕ => mn + (k : ℚ) * st)
  else []

/-- `_ahist(nbins)`: returns per-bin counts, the bin width and the lower bound.
The percentile indices use Python 2 integer division (`len(b)/100`,
`99*len(b)/100` are floor divisions on ints).  The counts come from
differencing the `searchsorted` positions of the bin edges, with the total
length appended as a final sentinel; numpy holds them as machine ints, here
`ℤ`. -/
def ahist (data : List ℚ) (nbins : ℚ) : List ℤ × ℚ × ℚ :=
  let b := npSort data
  let len := data.length
  let mx := b.getD (len - max 1 (len / 100)) 0
  let mn := b.getD (len - 99 * len / 100) 0
  let w := (mx - mn) / nbins
  let n := (npArange mn mx w).map (fun e => (searchsorted b e : ℤ)) ++ [(len : ℤ)]
  ((n.zip n.tail).map (fun p => p.2 - p.1), w, mn)

/-- `num.argmax`: index of the maximum entry, first occurrence on ties
(`0` on the empty list, where numpy would error). -/
def npArgmax : List ℤ → ℕ
  | [] => 0
  | x :: xs =>
    let j := npArgmax xs
    if x < xs.getD j x then j + 1 else 0

/-- `_stats(nbins)`: zero the last and the first bin count, locate the argmax,
and return `(am*w + l, (len(c)*w/2)/1.41)` where `c` are the counts above half
the peak.  The counts are nonnegative, so the Python 2 integer division
`b[am]/2` agrees with `ℤ` division. -/
def stats (data : List ℚ) (nbins : ℚ) : ℚ × ℚ :=
  let r := ahist data nbins
  let w := r.2.1
  let l := r.2.2
  let b := (r.1.set (r.1.length - 1) 0).set 0 0
  let am := npArgmax b
  let c := b.filter (fun x => b.getD am 0 / 2 < x)
  ((am : ℚ) * w + l, ((c.length : ℚ) * w / 2) / (141 / 100))

/-- `histMode(nbins)` public method: the mode component of `_stats`. -/
def histMode (data : List ℚ) (nbins : ℚ) : ℚ := (stats data nbins).1

/-- `num.mean` over real data (used inside `num.std`). -/
noncomputable def npMeanR (data : List ℝ) : ℝ := data.sum / data.length

/-- `num.std(data)`: population standard deviation (`ddof = 0`). -/
noncomputable def npStdR (data : List ℝ) : ℝ :=
  Real.sqrt ((data.map (fun x => (x - npMeanR data) ^ 2)).sum / data.length)

/-- `num.median` over real data. -/
noncomputable def npMedianR (data : List ℝ) : ℝ :=
  let b := List.insertionSort (fun a b => a ≤ b) data
  let n := data.length
  if n % 2 = 1 then b.getD (n / 2) 0
  else (b.getD (n / 2 - 1) 0 + b.getD (n / 2) 0) / 2

/-- `_gaussLike([m, s])`: the code computes
`X = -Σ(x-m)²/(2ss); X -= N·log((2πss)**0.5); return -X`.
`**0.5` is the real power `rpow` with exponent `1/2`. -/
noncomputable def gaussLike (data : List ℝ) (m s : ℝ) : ℝ :=
  -((-(data.map (fun x => (x - m) ^ 2)).sum / (2 * s * s)) -
    (data.length : ℝ) * Real.log ((2 * Real.pi * s * s) ^ ((1 : ℝ) / 2)))

/-- `_gaussFit()`: run `opti.fmin` (the external simplex optimizer, abstracted
as the parameter `fmin`) on `_gaussLike` from the start point
`[num.median(data), num.std(data)]`; the resulting pair is cached in
`self.gauss` and its first component is the returned fitted mean. -/
noncomputable def gaussFit (fmin : ((ℝ × ℝ) → ℝ) → (ℝ × ℝ) → ℝ × ℝ)
    (data : List ℝ) : ℝ × ℝ :=
  fmin (fun p => gaussLike data p.1 p.2) (npMedianR data, npStdR data)

/-- The estimator object's state: the flattened sample `self.data` (never
reassigned after `__init__`) and the cached fit `self.gauss` (absent until the
first `_gaussFit`). -/
structure BgState where
  data : List ℚ
  gauss : Option (ℝ × ℝ)

/-- `__init__(data)`: store the raveled sample; no `gauss` attribute yet. -/
def bgInit (data : List ℚ) : BgState := ⟨data, none⟩

/-- `median()` public method. -/
def medianOp (st : BgState) : ℚ × BgState := (npMedian st.data, st)

/-- `mean()` public method. -/
def meanOp (st : BgState) : ℚ × BgState := (npMean st.data, st)

/-- `histMode(nbins)` public method (reads `self.data` only). -/
def histModeOp (st : BgState) (nbins : ℚ) : ℚ × BgState := (histMode st.data nbins, st)

/-- `fraserMode(multi)` public method (reads `self.data` only). -/
def fraserModeOp (st : BgState) (multi : ℚ) : ℚ × BgState := (fraserMode st.data multi, st)

/-- `gaussFit()` public method: `self.gauss = res; return res[0]`.  The fitted
pair produced by `opti.fmin` on this sample is abstracted as `gfit self.data`. -/
noncomputable def gaussFitOp (gfit : List ℚ → ℝ × ℝ) (st : BgState) : ℝ × BgState :=
  ((gfit st.data).1, { st with gauss := some (gfit st.data) })

/-- `__call__(method, inp)`: the string dispatcher.  The `smart` branch
(`self.smartBackground()`, all defaults, `inp` not forwarded) is supplied as
the parameter `smartFn` to untangle the mutual recursion with
`smartBackground`'s own backup dispatch.  Unrecognized names raise
`ValueError('Unknown method {}'.format(method))`. -/
noncomputable def bgDispatchOp (gfit : List ℚ → ℝ × ℝ)
    (smartFn : BgState → Except String ℝ × BgState)
    (st : BgState) (method : String) (inp : Option ℚ) :
    Except String ℝ × BgState :=
  if method = "median" then (.ok ↑(npMedian st.data), st)
  else if method = "mean" then (.ok ↑(npMean st.data), st)
  else if method = "histMode" then (.ok ↑(histMode st.data (inp.getD 50)), st)
  else if method = "fraserMode" then (.ok ↑(fraserMode st.data (inp.getD (1 / 10))), st)
  else if method = "gaussFit" then
    ((.ok (gaussFitOp gfit st).1), (gaussFitOp gfit st).2)
  else if method = "smart" then smartFn st
  else (.error ("Unknown method " ++ method), st)

/-- `smartBackground(gaussStdLimit, backupMode, inp)` with the nested
`self('smart')` backup call abstracted as `smartFn`: run `_gaussFit`, read the
cached `(g, s)`, and test `s/g**0.5 > gaussStdLimit`.  On contamination the
code first evaluates `self(backupMode, inp)` when `inp` is not `None` (that
result is immediately overwritten) and then unconditionally returns
`self(backupMode)`; otherwise the fitted mean `g` is returned.  `g**0.5` is
the real square root (the claims below only use it for `g > 0`). -/
noncomputable def smartBackgroundOpWith (gfit : List ℚ → ℝ × ℝ)
    (smartFn : BgState → Except String ℝ × BgState)
    (st : BgState) (gaussStdLimit : ℝ) (backupMode : String) (inp : Option ℚ) :
    Except String ℝ × BgState :=
  let st1 := (gaussFitOp gfit st).2
  let gs := gfit st.data
  if gs.2 / Real.sqrt gs.1 > gaussStdLimit then
    match inp with
    | some p =>
      match bgDispatchOp gfit smartFn st1 backupMode (some p) with
      | (.error e, st2) => (.error e, st2)
      | (.ok _, st2) => bgDispatchOp gfit smartFn st2 backupMode none
    | none => bgDispatchOp gfit smartFn st1 backupMode none
  else (.ok gs.1, st1)

/-- `self.smartBackground()` with every argument at its default
(`gaussStdLimit=1.1`, `backupMode='fraserMode'`, `inp=None`), which is what
the dispatcher's `smart` branch invokes.  The backup mode is `'fraserMode'`,
so the nested-`smart` parameter is never consulted; a placeholder is passed. -/
noncomputable def smartBackgroundOpDefault (gfit : List ℚ → ℝ × ℝ)
    (st : BgState) : Except String ℝ × BgState :=
  smartBackgroundOpWith gfit (fun s => (.error "", s)) st (11 / 10) "fraserMode" none

/-- `smartBackground` as callable on a state: a nested `self(backupMode)` with
`backupMode='smart'` re-enters `smartBackground` with all defaults. -/
noncomputable def smartBackgroundOp (gfit : List ℚ → ℝ × ℝ) (st : BgState)
    (gaussStdLimit : ℝ) (backupMode : String) (inp : Option ℚ) :
    Except String ℝ × BgState :=
  smartBackgroundOpWith gfit (smartBackgroundOpDefault gfit) st gaussStdLimit backupMode inp

/-- `__call__` on a state, with the `smart` branch resolved to
`smartBackground()` with defaults. -/
noncomputable def bgCallOp (gfit : List ℚ → ℝ × ℝ) (st : BgState)
    (method : String) (inp : Option ℚ) : Except String ℝ × BgState :=
  bgDispatchOp gfit (smartBackgroundOpDefault gfit) st method inp

/-- Value returned by `bgFinder(data)(method, inp)` on a fresh estimator. -/
noncomputable def bgCall (gfit : List ℚ → ℝ × ℝ) (data : List ℚ)
    (method : String) (inp : Option ℚ) : Except String ℝ :=
  (bgCallOp gfit (bgInit data) method inp).1

/-- Value returned by `bgFinder(data).smartBackground(...)` on a fresh
estimator. -/
noncomputable def smartBackground (gfit : List ℚ → ℝ × ℝ) (data : List ℚ)
    (gaussStdLimit : ℝ) (backupMode : String) (inp : Option ℚ) : Except String ℝ :=
  (smartBackgroundOp gfit (bgInit data) gaussStdLimit backupMode inp).1

/-! ### Reduction lemmas for the dispatcher and the adaptive estimator -/

theorem bgCall_def (gfit : List ℚ → ℝ × ℝ) (data : List ℚ) (m : String) (inp : Option ℚ) :
    bgCall gfit data m inp =
      (bgDispatchOp gfit (smartBackgroundOpDefault gfit) (bgInit data) m inp).1 := rfl

theorem smartBackground_def (gfit : List ℚ → ℝ × ℝ) (data : List ℚ)
    (limit : ℝ) (backupMode : String) (inp : Option ℚ) :
    smartBackground gfit data limit backupMode inp =
      (smartBackgroundOpWith gfit (smartBackgroundOpDefault gfit) (bgInit data)
        limit backupMode inp).1 := rfl

theorem bgDispatchOp_median (gfit : List ℚ → ℝ × ℝ) (smartFn : BgState → Except String ℝ × BgState)
    (st : BgState) (inp : Option ℚ) :
    bgDispatchOp gfit smartFn st "median" inp = (.ok ↑(npMedian st.data), st) := rfl

theorem bgDispatchOp_mean (gfit : List ℚ → ℝ × ℝ) (smartFn : BgState → Except String ℝ × BgState)
    (st : BgState) (inp : Option ℚ) :
    bgDispatchOp gfit smartFn st "mean" inp = (.ok ↑(npMean st.data), st) := rfl

theorem bgDispatchOp_histMode (gfit : List ℚ → ℝ × ℝ) (smartFn : BgState → Except String ℝ × BgState)
    (st : BgState) (inp : Option ℚ) :
    bgDispatchOp gfit smartFn st "histMode" inp = (.ok ↑(histMode st.data (inp.getD 50)), st) := rfl

theorem bgDispatchOp_fraserMode (gfit : List ℚ → ℝ × ℝ) (smartFn : BgState → Except String ℝ × BgState)
    (st : BgState) (inp : Option ℚ) :
    bgDispatchOp gfit smartFn st "fraserMode" inp =
      (.ok ↑(fraserMode st.data (inp.getD (1 / 10))), st) := rfl

theorem bgDispatchOp_gaussFit (gfit : List ℚ → ℝ × ℝ) (smartFn : BgState → Except String ℝ × BgState)
    (st : BgState) (inp : Option ℚ) :
    bgDispatchOp gfit smartFn st "gaussFit" inp =
      (.ok (gfit st.data).1, { st with gauss := some (gfit st.data) }) := rfl

theorem bgDispatchOp_smart (gfit : List ℚ → ℝ × ℝ) (smartFn : BgState → Except String ℝ × BgState)
    (st : BgState) (inp : Option ℚ) :
    bgDispatchOp gfit smartFn st "smart" inp = smartFn st := rfl

theorem bgDispatchOp_unknown (gfit : List ℚ → ℝ × ℝ) (smartFn : BgState → Except String ℝ × BgState)
    (st : BgState) (m : String) (inp : Option ℚ)
    (h : m ∉ (["median", "mean", "histMode", "fraserMode", "gaussFit", "smart"] : List String)) :
    bgDispatchOp gfit smartFn st m inp = (.error ("Unknown method " ++ m), st) := by
  simp only [List.mem_cons, List.not_mem_nil, or_false, not_or] at h
  obtain ⟨h1, h2, h3, h4, h5, h6⟩ := h
  simp only [bgDispatchOp, if_neg h1, if_neg h2, if_neg h3, if_neg h4, if_neg h5, if_neg h6]

theorem smartBackgroundOpWith_ok (gfit : List ℚ → ℝ × ℝ)
    (smartFn : BgState → Except String ℝ × BgState) (st : BgState)
    (limit : ℝ) (backupMode : String) (inp : Option ℚ)
    (h : ¬ ((gfit st.data).2 / Real.sqrt (gfit st.data).1 > limit)) :
    smartBackgroundOpWith gfit smartFn st limit backupMode inp =
      (.ok (gfit st.data).1, { st with gauss := some (gfit st.data) }) := by
  simp only [smartBackgroundOpWith, gaussFitOp, if_neg h]

theorem smartBackgroundOpWith_backup_none (gfit : List ℚ → ℝ × ℝ)
    (smartFn : BgState → Except String ℝ × BgState) (st : BgState)
    (limit : ℝ) (backupMode : String)
    (h : (gfit st.data).2 / Real.sqrt (gfit st.data).1 > limit) :
    smartBackgroundOpWith gfit smartFn st limit backupMode none =
      bgDispatchOp gfit smartFn { st with gauss := some (gfit st.data) } backupMode none := by
  simp only [smartBackgroundOpWith, gaussFitOp, if_pos h]

theorem smartBackgroundOpWith_backup_some (gfit : List ℚ → ℝ × ℝ)
    (smartFn : BgState → Except String ℝ × BgState) (st : BgState)
    (limit : ℝ) (backupMode : String) (p : ℚ)
    (h : (gfit st.data).2 / Real.sqrt (gfit st.data).1 > limit) :
    smartBackgroundOpWith gfit smartFn st limit backupMode (some p) =
      (match bgDispatchOp gfit smartFn { st with gauss := some (gfit st.data) } backupMode (some p) with
        | (.error e, st2) => (.error e, st2)
        | (.ok _, st2) => bgDispatchOp gfit smartFn st2 backupMode none) := by
  simp only [smartBackgroundOpWith, gaussFitOp, if_pos h]

/-! ### Claim theorems: dispatcher and adaptive estimator -/

/-- C10: for every sample and every value of the optional parameter, the
dispatcher invoked with "median", "mean", "gaussFit" or "smart" returns the
same value as when invoked with no parameter; in particular the "smart" branch
invokes `smartBackground()` with all defaults and never forwards `inp`. -/
theorem C10_param_ignored (gfit : List ℚ → ℝ × ℝ) (data : List ℚ) (p : ℚ) :
    bgCall gfit data "median" (some p) = bgCall gfit data "median" none ∧
    bgCall gfit data "mean" (some p) = bgCall gfit data "mean" none ∧
    bgCall gfit data "gaussFit" (some p) = bgCall gfit data "gaussFit" none ∧
    bgCall gfit data "smart" (some p) = bgCall gfit data "smart" none := by
  refine ⟨?_, ?_, ?_, ?_⟩ <;>
    simp only [bgCall_def, bgDispatchOp_median, bgDispatchOp_mean, bgDispatchOp_gaussFit,
      bgDispatchOp_smart]

/-- C6: the dispatcher fails with `ValueError('Unknown method ...')` on a name
outside the six recognized ones; with a recognized name and a parameter it
returns the direct method at that parameter (`histMode(nbins)`,
`fraserMode(multi)`), and with the parameter omitted it uses the defaults
`nbins = 50` and `multi = 0.1`. -/
theorem C6_dispatcher (gfit : List ℚ → ℝ × ℝ) (data : List ℚ) (m : String)
    (inp : Option ℚ) (p : ℚ) :
    (m ∉ (["median", "mean", "histMode", "fraserMode", "gaussFit", "smart"] : List String) →
      bgCall gfit data m inp = .error ("Unknown method " ++ m)) ∧
    bgCall gfit data "histMode" (some p) = .ok ↑(histMode data p) ∧
    bgCall gfit data "fraserMode" (some p) = .ok ↑(fraserMode data p) ∧
    bgCall gfit data "histMode" none = .ok ↑(histMode data 50) ∧
    bgCall gfit data "fraserMode" none = .ok ↑(fraserMode data (1 / 10)) := by
  refine ⟨fun h => ?_, ?_, ?_, ?_, ?_⟩
  · rw [bgCall_def, bgDispatchOp_unknown _ _ _ _ _ h]
  · rw [bgCall_def, bgDispatchOp_histMode]; rfl
  · rw [bgCall_def, bgDispatchOp_fraserMode]; rfl
  · rw [bgCall_def, bgDispatchOp_histMode]; rfl
  · rw [bgCall_def, bgDispatchOp_fraserMode]; rfl

/-- Witness for C6 at a concrete estimator: `call("bogus")` errors and
`call("histMode", 20)` equals `histMode(nbins=20)`. -/
theorem C6_dispatcher_witness :
    bgCall (fun _ => ((0 : ℝ), 0)) [0] "bogus" none = .error "Unknown method bogus" ∧
    bgCall (fun _ => ((0 : ℝ), 0)) [0] "histMode" (some 20) = .ok ↑(histMode [0] 20) := by
  constructor
  · exact (C6_dispatcher (fun _ => ((0 : ℝ), 0)) [0] "bogus" none 20).1 (by decide)
  · exact (C6_dispatcher (fun _ => ((0 : ℝ), 0)) [0] "bogus" none 20).2.1

/-- C1: for a Gaussian fit result `(g, s)` with `g > 0`, the adaptive estimator
returns the fitted mean `g` when `s / sqrt g ≤ gaussStdLimit`, and the result
of the backup estimator (default `fraserMode`, at its default parameter)
when `s / sqrt g > gaussStdLimit`. -/
theorem C1_smart_threshold (gfit : List ℚ → ℝ × ℝ) (data : List ℚ)
    (limit : ℝ) (inp : Option ℚ) (g s : ℝ)
    (hfit : gfit data = (g, s)) (hg : 0 < g) :
    (s / Real.sqrt g ≤ limit →
      smartBackground gfit data limit "fraserMode" inp = .ok g) ∧
    (limit < s / Real.sqrt g →
      smartBackground gfit data limit "fraserMode" inp = .ok ↑(fraserMode data (1 / 10))) := by
  have hd : (bgInit data).data = data := rfl
  constructor
  · intro hle
    have h' : ¬ ((gfit (bgInit data).data).2 / Real.sqrt (gfit (bgInit data).data).1 > limit) := by
      rw [hd, hfit]; exact not_lt.mpr hle
    rw [smartBackground_def, smartBackgroundOpWith_ok _ _ _ _ _ _ h']
    show Except.ok (gfit data).1 = _
    rw [hfit]
  · intro hlt
    have h' : (gfit (bgInit data).data).2 / Real.sqrt (gfit (bgInit data).data).1 > limit := by
      rw [hd, hfit]; exact hlt
    cases inp with
    | none =>
      rw [smartBackground_def, smartBackgroundOpWith_backup_none _ _ _ _ _ h',
        bgDispatchOp_fraserMode]; rfl
    | some p =>
      rw [smartBackground_def, smartBackgroundOpWith_backup_some _ _ _ _ _ _ h',
        bgDispatchOp_fraserMode]
      show (bgDispatchOp gfit (smartBackgroundOpDefault gfit)
        { data := (bgInit data).data, gauss := some (gfit (bgInit data).data) }
        "fraserMode" none).1 = _
      rw [bgDispatchOp_fraserMode]; rfl

/-- Witness for C1: a clean fit `(1, 1)` is below a limit of `2` and the
fitted mean is returned; with a limit of `1/2` the same fit is contaminated
and the `fraserMode` value is returned. -/
theorem C1_smart_threshold_witness :
    smartBackground (fun _ => ((1 : ℝ), 1)) [0] 2 "fraserMode" none = .ok 1 ∧
    smartBackground (fun _ => ((1 : ℝ), 1)) [0] (1 / 2) "fraserMode" none =
      .ok ↑(fraserMode [0] (1 / 10)) := by
  constructor
  · exact (C1_smart_threshold (fun _ => ((1 : ℝ), 1)) [0] 2 none 1 1 rfl one_pos).1
      (by rw [Real.sqrt_one]; norm_num)
  · exact (C1_smart_threshold (fun _ => ((1 : ℝ), 1)) [0] (1 / 2) none 1 1 rfl one_pos).2
      (by rw [Real.sqrt_one]; norm_num)

/-- C2: evaluation of the code at a failing input for the claim "a supplied
backup parameter is used".  With sample `[0, 0, 5, 5]`, a contaminated fit
`(1, 10)` and supplied backup parameter `1`, `smartBackground` returns the
backup at its default parameter, `fraserMode(0.1) = 5/2`, not the supplied
parameter's `fraserMode(1) = 0`: the parametrized invocation's result is
overwritten by the unconditional `self(backupMode)` that follows it. -/
theorem C2_backup_param_dropped :
    smartBackground (fun _ => ((1 : ℝ), 10)) [0, 0, 5, 5] (11 / 10) "fraserMode" (some 1) =
      .ok ((5 / 2 : ℚ) : ℝ) ∧
    fraserMode [0, 0, 5, 5] 1 = 0 ∧
    fraserMode [0, 0, 5, 5] (1 / 10) = 5 / 2 := by
  have e1 : fraserMode [0, 0, 5, 5] (1 / 10) = 5 / 2 := by
    have h1 : ([0, 0, 5, 5] : List ℚ).map (fun v => truncQ (v * (1 / 10))) = [0, 0, 0, 0] := by
      norm_num [truncQ]
    have h2 : statsMode [0, 0, 0, 0] = 0 := by decide
    simp only [fraserMode, h1, h2, List.length_cons, List.length_nil]
    have h3 : (List.range (0 + 1 + 1 + 1 + 1)).filter
        (fun i => decide (([0, 0, 0, 0] : List ℤ).getD i 0 = 0)) = [0, 1, 2, 3] := by decide
    rw [h3]
    norm_num [npMedian, npSort, List.insertionSort, List.orderedInsert, List.getD]
  have e2 : fraserMode [0, 0, 5, 5] 1 = 0 := by
    have h1 : ([0, 0, 5, 5] : List ℚ).map (fun v => truncQ (v * 1)) = [0, 0, 5, 5] := by
      norm_num [truncQ]
    have h2 : statsMode [0, 0, 5, 5] = 0 := by decide
    simp only [fraserMode, h1, h2, List.length_cons, List.length_nil]
    have h3 : (List.range (0 + 1 + 1 + 1 + 1)).filter
        (fun i => decide (([0, 0, 5, 5] : List ℤ).getD i 0 = 0)) = [0, 1] := by decide
    rw [h3]
    norm_num [npMedian, npSort, List.insertionSort, List.orderedInsert, List.getD]
  refine ⟨?_, e2, e1⟩
  have h' : ((fun _ : List ℚ => ((1 : ℝ), 10)) (bgInit [0, 0, 5, 5]).data).2 /
      Real.sqrt ((fun _ : List ℚ => ((1 : ℝ), 10)) (bgInit [0, 0, 5, 5]).data).1 >
      (11 / 10 : ℝ) := by
    norm_num [Real.sqrt_one]
  rw [smartBackground_def, smartBackgroundOpWith_backup_some _ _ _ _ _ _ h',
    bgDispatchOp_fraserMode]
  show (bgDispatchOp (fun _ => ((1 : ℝ), 10)) (smartBackgroundOpDefault (fun _ => ((1 : ℝ), 10)))
    { data := (bgInit [0, 0, 5, 5]).data, gauss := some ((1 : ℝ), 10) } "fraserMode" none).1 = _
  rw [bgDispatchOp_fraserMode]
  show Except.ok ((fraserMode [0, 0, 5, 5] (1 / 10) : ℚ) : ℝ) = _
  rw [e1]

theorem bgDispatchOp_state (gfit : List ℚ → ℝ × ℝ)
    (smartFn : BgState → Except String ℝ × BgState)
    (hFn : ∀ s, (smartFn s).2.data = s.data ∧
      ((smartFn s).2.gauss = s.gauss ∨ (smartFn s).2.gauss = some (gfit s.data)))
    (st : BgState) (method : String) (inp : Option ℚ) :
    (bgDispatchOp gfit smartFn st method inp).2.data = st.data ∧
    ((bgDispatchOp gfit smartFn st method inp).2.gauss = st.gauss ∨
      (bgDispatchOp gfit smartFn st method inp).2.gauss = some (gfit st.data)) := by
  unfold bgDispatchOp
  split_ifs with h1 h2 h3 h4 h5 h6
  · exact ⟨rfl, .inl rfl⟩
  · exact ⟨rfl, .inl rfl⟩
  · exact ⟨rfl, .inl rfl⟩
  · exact ⟨rfl, .inl rfl⟩
  · exact ⟨rfl, .inr rfl⟩
  · exact hFn st
  · exact ⟨rfl, .inl rfl⟩

theorem smartBackgroundOpWith_state (gfit : List ℚ → ℝ × ℝ)
    (smartFn : BgState → Except String ℝ × BgState)
    (hFn : ∀ s, (smartFn s).2.data = s.data ∧
      ((smartFn s).2.gauss = s.gauss ∨ (smartFn s).2.gauss = some (gfit s.data)))
    (st : BgState) (limit : ℝ) (backupMode : String) (inp : Option ℚ) :
    (smartBackgroundOpWith gfit smartFn st limit backupMode inp).2.data = st.data ∧
    (smartBackgroundOpWith gfit smartFn st limit backupMode inp).2.gauss =
      some (gfit st.data) := by
  have hst1 : ({ st with gauss := some (gfit st.data) } : BgState).data = st.data := rfl
  unfold smartBackgroundOpWith gaussFitOp
  dsimp only
  split_ifs with hcond
  · cases inp with
    | none =>
      dsimp only
      obtain ⟨hd, hgauss⟩ := bgDispatchOp_state gfit smartFn hFn
        { st with gauss := some (gfit st.data) } backupMode none
      refine ⟨hd, ?_⟩
      rcases hgauss with h | h
      · exact h
      · rw [h, hst1]
    | some p =>
      dsimp only
      obtain ⟨hd2, hgauss2⟩ := bgDispatchOp_state gfit smartFn hFn
        { st with gauss := some (gfit st.data) } backupMode (some p)
      rcases hb : bgDispatchOp gfit smartFn { st with gauss := some (gfit st.data) }
          backupMode (some p) with ⟨r, st2⟩
      rw [hb] at hd2 hgauss2
      have hst2d : st2.data = st.data := hd2
      have hst2g : st2.gauss = some (gfit st.data) := by
        rcases hgauss2 with h | h
        · exact h
        · rw [h, hst1]
      cases r with
      | error e => exact ⟨hst2d, hst2g⟩
      | ok v =>
        obtain ⟨hd3, hgauss3⟩ := bgDispatchOp_state gfit smartFn hFn st2 backupMode none
        refine ⟨by dsimp only; rw [hd3, hst2d], ?_⟩
        dsimp only
        rcases hgauss3 with h | h
        · rw [h, hst2g]
        · rw [h, hst2d]
  · exact ⟨rfl, rfl⟩

theorem smartBackgroundOpDefault_state (gfit : List ℚ → ℝ × ℝ) (st : BgState) :
    (smartBackgroundOpDefault gfit st).2.data = st.data ∧
    (smartBackgroundOpDefault gfit st).2.gauss = some (gfit st.data) := by
  unfold smartBackgroundOpDefault
  exact smartBackgroundOpWith_state gfit _ (fun s => ⟨rfl, .inl rfl⟩) st _ _ _

/-- C9: every estimator operation leaves the stored sample unchanged; the
read-only methods leave the whole state unchanged, `gaussFit` writes exactly
the cached fit, the dispatcher either keeps the cache or writes the fit for
this sample, and `smartBackground` always ends with the cache holding the fit
of the (unchanged) sample. -/
theorem C9_frame_effects (gfit : List ℚ → ℝ × ℝ) (st : BgState) (nbins multi : ℚ)
    (method : String) (inp : Option ℚ) (limit : ℝ) (backupMode : String) :
    (medianOp st).2 = st ∧ (meanOp st).2 = st ∧
    (histModeOp st nbins).2 = st ∧ (fraserModeOp st multi).2 = st ∧
    (gaussFitOp gfit st).2 = { st with gauss := some (gfit st.data) } ∧
    (smartBackgroundOp gfit st limit backupMode inp).2.data = st.data ∧
    (smartBackgroundOp gfit st limit backupMode inp).2.gauss = some (gfit st.data) ∧
    (bgCallOp gfit st method inp).2.data = st.data ∧
    ((bgCallOp gfit st method inp).2.gauss = st.gauss ∨
      (bgCallOp gfit st method inp).2.gauss = some (gfit st.data)) := by
  have hFn : ∀ s, (smartBackgroundOpDefault gfit s).2.data = s.data ∧
      ((smartBackgroundOpDefault gfit s).2.gauss = s.gauss ∨
        (smartBackgroundOpDefault gfit s).2.gauss = some (gfit s.data)) :=
    fun s => ⟨(smartBackgroundOpDefault_state gfit s).1,
      .inr (smartBackgroundOpDefault_state gfit s).2⟩
  obtain ⟨hsd, hsg⟩ := smartBackgroundOpWith_state gfit _ hFn st limit backupMode inp
  obtain ⟨hcd, hcg⟩ := bgDispatchOp_state gfit _ hFn st method inp
  exact ⟨rfl, rfl, rfl, rfl, rfl, hsd, hsg, hcd, hcg⟩

/-- C5: for positive candidate standard deviation `s` the objective minimized
by `_gaussFit` equals `NLL(m, s) = (sum (x - m)^2) / (2 s^2) + N * log (sqrt (2 pi) * s)`,
and the minimization is started from (sample median, sample standard
deviation). -/
theorem C5_gauss_objective (data : List ℝ) (m s : ℝ) (hs : 0 < s) :
    gaussLike data m s =
      (data.map (fun x => (x - m) ^ 2)).sum / (2 * s ^ 2) +
        (data.length : ℝ) * Real.log (Real.sqrt (2 * Real.pi) * s) ∧
    ∀ fmin : ((ℝ × ℝ) → ℝ) → (ℝ × ℝ) → ℝ × ℝ,
      gaussFit fmin data =
        fmin (fun p => gaussLike data p.1 p.2) (npMedianR data, npStdR data) := by
  constructor
  · unfold gaussLike
    rw [← Real.sqrt_eq_rpow]
    have h1 : 2 * Real.pi * s * s = (2 * Real.pi) * (s * s) := by ring
    rw [h1, Real.sqrt_mul (by positivity) (s * s), Real.sqrt_mul_self hs.le]
    have hs2 : s ^ 2 = s * s := sq s
    field_simp
    ring
  · intro fmin
    rfl

/-- Witness for C5 at the sample `[1]`, `m = 0`, `s = 1`. -/
theorem C5_gauss_objective_witness :
    gaussLike [(1 : ℝ)] 0 1 =
      (([(1 : ℝ)].map (fun x => (x - 0) ^ 2)).sum) / (2 * 1 ^ 2) +
        (([(1 : ℝ)].length : ℝ)) * Real.log (Real.sqrt (2 * Real.pi) * 1) ∧
    gaussFit (fun g x0 => x0) [(1 : ℝ)] = (npMedianR [(1 : ℝ)], npStdR [(1 : ℝ)]) :=
  ⟨(C5_gauss_objective [(1 : ℝ)] 0 1 one_pos).1,
    (C5_gauss_objective [(1 : ℝ)] 0 1 one_pos).2 (fun g x0 => x0)⟩

/-- C8 counterexample: at candidate scale `s = -1` the objective is not
guarded into an effectively infinite / rejecting cost: it returns the same
ordinary finite value as at `s = 1`, namely `1/2 + log (sqrt (2 pi))` for the
sample `[1]` with `m = 0`. -/
theorem C8_no_guard_counterexample :
    gaussLike [(1 : ℝ)] 0 (-1) = gaussLike [(1 : ℝ)] 0 1 ∧
    gaussLike [(1 : ℝ)] 0 1 = 1 / 2 + Real.log (Real.sqrt (2 * Real.pi)) := by
  constructor
  · unfold gaussLike
    norm_num
  · unfold gaussLike
    rw [← Real.sqrt_eq_rpow]
    norm_num
    ring

/-- C8 (amended): `_gaussLike` has no guard on non-positive scale: the
objective depends on the candidate scale only through its square, so every
negative scale evaluates to the same finite cost as its absolute value (and
`s = 0` places a zero denominator in the division); the code relies on the
optimizer avoiding non-positive scale, rather than rejecting such steps. -/
theorem C8_scale_unguarded (data : List ℝ) (m s : ℝ) :
    gaussLike data m (-s) = gaussLike data m s := by
  unfold gaussLike
  have h1 : 2 * -s * -s = 2 * s * s := by ring
  have h2 : 2 * Real.pi * -s * -s = 2 * Real.pi * s * s := by ring
  rw [h1, h2]

/-- C7: the Gaussian path on the degenerate sample `[1, 1, 1]` (one repeated
value) raises no error: `num.std` is `0` and `num.median` is `1`, and
`_gaussFit` unconditionally hands the optimizer the start point `(1, 0)`, at
which the objective's denominator `2*s*s` is zero (a float division by zero in
the source) - there is no degenerate-sample check on this path. -/
theorem C7_degenerate_gauss_eval :
    npStdR [1, 1, 1] = 0 ∧ npMedianR [1, 1, 1] = 1 ∧
    ∀ fmin : ((ℝ × ℝ) → ℝ) → (ℝ × ℝ) → ℝ × ℝ,
      gaussFit fmin [1, 1, 1] =
        fmin (fun p => gaussLike [1, 1, 1] p.1 p.2) (1, 0) := by
  have hstd : npStdR [1, 1, 1] = 0 := by
    unfold npStdR npMeanR
    norm_num
  have hsort : List.insertionSort (fun a b => a ≤ b) [(1 : ℝ), 1, 1] = [1, 1, 1] := by
    simp [List.insertionSort, List.orderedInsert]
  have hmed : npMedianR [1, 1, 1] = 1 := by
    unfold npMedianR
    rw [hsort]
    norm_num
  refine ⟨hstd, hmed, fun fmin => ?_⟩
  unfold gaussFit
  rw [hmed, hstd]

/-! ### C3: the quantized-mode estimator -/

theorem statsMode_spec (ys : List ℤ) (hne : ys ≠ []) :
    statsMode ys ∈ ys ∧
    (∀ v ∈ ys, ys.count v ≤ ys.count (statsMode ys)) ∧
    (∀ v ∈ ys, ys.count v = ys.count (statsMode ys) → statsMode ys ≤ v) := by
  have hperm := List.perm_insertionSort (· ≤ ·) ys
  have hsorted := List.sorted_insertionSort (· ≤ ·) ys
  obtain ⟨v0, hv0⟩ : ∃ v0, v0 ∈ List.argmax (fun v => ys.count v) ys := by
    cases h : List.argmax (fun v => ys.count v) ys with
    | none => exact absurd (List.argmax_eq_none.mp h) hne
    | some v => exact ⟨v, Option.mem_def.mpr rfl⟩
  have hv0mem : v0 ∈ ys := List.argmax_mem hv0
  have hv0max : ∀ u ∈ ys, ys.count u ≤ ys.count v0 := fun u hu =>
    List.le_of_mem_argmax hu hv0
  have hv0L : v0 ∈ (List.insertionSort (· ≤ ·) ys).filter
      (fun v => ys.all (fun u => ys.count u ≤ ys.count v)) := by
    rw [List.mem_filter]
    refine ⟨hperm.mem_iff.mpr hv0mem, ?_⟩
    rw [List.all_eq_true]
    intro u hu
    exact decide_eq_true (hv0max u hu)
  cases hLl : (List.insertionSort (· ≤ ·) ys).filter
      (fun v => ys.all (fun u => ys.count u ≤ ys.count v)) with
  | nil => rw [hLl] at hv0L; exact absurd hv0L (List.not_mem_nil v0)
  | cons a t =>
    have hmode : statsMode ys = a := by unfold statsMode; rw [hLl]; rfl
    have haL : a ∈ (List.insertionSort (· ≤ ·) ys).filter
        (fun v => ys.all (fun u => ys.count u ≤ ys.count v)) := by
      rw [hLl]; exact List.mem_cons_self a t
    rw [List.mem_filter, List.all_eq_true] at haL
    obtain ⟨haSorted, haP⟩ := haL
    have hamem : a ∈ ys := hperm.mem_iff.mp haSorted
    have hamax : ∀ u ∈ ys, ys.count u ≤ ys.count a := fun u hu =>
      of_decide_eq_true (haP u hu)
    have hLsorted : List.Sorted (· ≤ ·) ((List.insertionSort (· ≤ ·) ys).filter
        (fun v => ys.all (fun u => ys.count u ≤ ys.count v))) :=
      List.Pairwise.filter _ hsorted
    rw [hLl] at hLsorted
    refine ⟨hmode ▸ hamem, fun v hv => hmode ▸ hamax v hv, fun v hv hcnt => ?_⟩
    rw [hmode] at hcnt ⊢
    have hvP : v ∈ (List.insertionSort (· ≤ ·) ys).filter
        (fun v => ys.all (fun u => ys.count u ≤ ys.count v)) := by
      rw [List.mem_filter]
      refine ⟨hperm.mem_iff.mpr hv, ?_⟩
      rw [List.all_eq_true]
      intro u hu
      exact decide_eq_true (hcnt ▸ hamax u hu)
    rw [hLl] at hvP
    rcases List.mem_cons.mp hvP with h | h
    · exact h ▸ le_refl a
    · exact List.rel_of_sorted_cons hLsorted v h

theorem selectWhere_eq_filter (l : List ℚ) (g : ℚ → ℤ) (b : ℤ) :
    ((List.range l.length).filter (fun i => (l.map g).getD i 0 = b)).map
        (fun i => l.getD i 0) =
      l.filter (fun v => g v = b) := by
  induction l with
  | nil => rfl
  | cons x xs ih =>
    have hcomp1 : ((fun i => decide (((x :: xs).map g).getD i 0 = b)) ∘ Nat.succ) =
        fun i => decide ((xs.map g).getD i 0 = b) := by
      funext i
      simp only [Function.comp_apply, List.map_cons, List.getD_cons_succ]
    have hcomp2 : ((fun i => (x :: xs).getD i 0) ∘ Nat.succ) = fun i => xs.getD i 0 := by
      funext i
      simp only [Function.comp_apply, List.getD_cons_succ]
    rw [List.length_cons, List.range_succ_eq_map, List.filter_cons, List.filter_map, hcomp1]
    by_cases hx : g x = b
    · rw [if_pos (by simpa using hx), List.map_cons, List.map_map, hcomp2,
        List.getD_cons_zero, List.filter_cons_of_pos (by simpa using hx), ih]
    · rw [if_neg (by simpa using hx), List.map_map, hcomp2,
        List.filter_cons_of_neg (by simpa using hx), ih]

/-- The claim's version of the quantizer: `floor(value * multi)` instead of the
code's truncating cast (they differ on negative products). -/
def fraserModeFloor (data : List ℚ) (multi : ℚ) : ℚ :=
  let y := data.map (fun v => (⌊v * multi⌋ : ℤ))
  let mode := statsMode y
  let w := (List.range data.length).filter (fun i => y.getD i 0 = mode)
  npMedian (w.map (fun i => data.getD i 0))

/-- C3 counterexample: on the sample `[-5, 6, 15, 15]` with `multi = 0.1` the
code's truncating cast quantizes to `[0, 0, 1, 1]` (mode `0`, median of
`[-5, 6]` is `1/2`), while the claim's `floor` quantizes to `[-1, 0, 1, 1]`
(mode `1`, median of `[15, 15]` is `15`): the claimed value `15` is not what
the estimator returns. -/
theorem C3_floor_counterexample :
    fraserMode [-5, 6, 15, 15] (1 / 10) = 1 / 2 ∧
    fraserModeFloor [-5, 6, 15, 15] (1 / 10) = 15 ∧
    (1 / 2 : ℚ) ≠ 15 := by
  refine ⟨?_, ?_, by norm_num⟩
  · have h1 : ([-5, 6, 15, 15] : List ℚ).map (fun v => truncQ (v * (1 / 10))) =
        [0, 0, 1, 1] := by
      norm_num [truncQ]
    have h2 : statsMode [0, 0, 1, 1] = 0 := by decide
    simp only [fraserMode, h1, h2, List.length_cons, List.length_nil]
    have h3 : (List.range (0 + 1 + 1 + 1 + 1)).filter
        (fun i => decide (([0, 0, 1, 1] : List ℤ).getD i 0 = 0)) = [0, 1] := by decide
    rw [h3]
    norm_num [npMedian, npSort, List.insertionSort, List.orderedInsert, List.getD]
  · have h1 : ([-5, 6, 15, 15] : List ℚ).map (fun v => (⌊v * (1 / 10)⌋ : ℤ)) =
        [-1, 0, 1, 1] := by
      norm_num
    have h2 : statsMode [-1, 0, 1, 1] = 1 := by decide
    simp only [fraserModeFloor, h1, h2, List.length_cons, List.length_nil]
    have h3 : (List.range (0 + 1 + 1 + 1 + 1)).filter
        (fun i => decide (([-1, 0, 1, 1] : List ℤ).getD i 0 = 1)) = [2, 3] := by decide
    rw [h3]
    norm_num [npMedian, npSort, List.insertionSort, List.orderedInsert, List.getD]

/-- C3 (amended): with the quantizer corrected to the code's truncating cast
(toward zero; equal to floor only for non-negative products), the estimator
returns the median of the original values at exactly the indices whose
quantized value equals the mode of the quantized sequence, where the mode is a
quantized value of maximal multiplicity and the smallest one on ties. -/
theorem C3_fraser_quantized_mode (data : List ℚ) (multi : ℚ)
    (hne : data ≠ []) (hm : 0 < multi) :
    statsMode (data.map fun v => truncQ (v * multi)) ∈
      (data.map fun v => truncQ (v * multi)) ∧
    (∀ q ∈ data.map fun v => truncQ (v * multi),
      (data.map fun v => truncQ (v * multi)).count q ≤
        (data.map fun v => truncQ (v * multi)).count
          (statsMode (data.map fun v => truncQ (v * multi)))) ∧
    (∀ q ∈ data.map fun v => truncQ (v * multi),
      (data.map fun v => truncQ (v * multi)).count q =
        (data.map fun v => truncQ (v * multi)).count
          (statsMode (data.map fun v => truncQ (v * multi))) →
      statsMode (data.map fun v => truncQ (v * multi)) ≤ q) ∧
    fraserMode data multi =
      npMedian (data.filter fun v =>
        truncQ (v * multi) = statsMode (data.map fun v => truncQ (v * multi))) := by
  have hys : (data.map fun v => truncQ (v * multi)) ≠ [] := by
    cases data with
    | nil => exact absurd rfl hne
    | cons a l => simp
  obtain ⟨h1, h2, h3⟩ := statsMode_spec _ hys
  refine ⟨h1, h2, h3, ?_⟩
  unfold fraserMode
  exact congrArg npMedian (selectWhere_eq_filter data _ _)

/-- Witness for C3 (amended) on the sample `[3]` with `multi = 1`. -/
theorem C3_fraser_quantized_mode_witness :
    fraserMode [(3 : ℚ)] 1 =
      npMedian (([(3 : ℚ)]).filter fun v =>
        truncQ (v * 1) = statsMode ([(3 : ℚ)].map fun v => truncQ (v * 1))) ∧
    statsMode ([(3 : ℚ)].map fun v => truncQ (v * 1)) ∈
      ([(3 : ℚ)].map fun v => truncQ (v * 1)) := by
  have h := C3_fraser_quantized_mode [(3 : ℚ)] 1 (by simp) one_pos
  exact ⟨h.2.2.2, h.1⟩

/-! ### C4: the histogram-mode estimator -/

/-- Successive differences of a list (proof helper for the `n[1:]-n[:-1]`
construction in `_ahist`). -/
def diffs : List ℤ → List ℤ
  | a :: b :: t => (b - a) :: diffs (b :: t)
  | _ => []

theorem zip_tail_diff (n : List ℤ) :
    (n.zip n.tail).map (fun p => p.2 - p.1) = diffs n := by
  induction n with
  | nil => rfl
  | cons a t ih =>
    cases t with
    | nil => rfl
    | cons b t' =>
      show (b - a) :: ((b :: t').zip t').map (fun p => p.2 - p.1) = (b - a) :: diffs (b :: t')
      rw [← ih]
      rfl

theorem diffs_map_append (s : ℕ → ℤ) (last : ℤ) :
    ∀ (m k : ℕ), diffs ((List.range' k m).map s ++ [last]) =
      (List.range' k m).map (fun j => (if j + 1 = k + m then last else s (j + 1)) - s j) := by
  intro m
  induction m with
  | zero => intro k; rfl
  | succ m ih =>
    intro k
    rw [List.range'_succ]
    cases m with
    | zero =>
      show diffs [s k, last] = [(if k + 1 = k + 1 then last else s (k + 1)) - s k]
      rw [if_pos rfl]
      rfl
    | succ m' =>
      rw [List.range'_succ]
      show (s (k + 1) - s k) ::
          diffs ((s (k + 1) :: (List.range' (k + 2) m').map s) ++ [last]) =
        ((if k + 1 = k + (m' + 1 + 1) then last else s (k + 1)) - s k) ::
          ((k + 1) :: List.range' (k + 2) m').map
            (fun j => (if j + 1 = k + (m' + 1 + 1) then last else s (j + 1)) - s j)
      rw [if_neg (by omega)]
      congr 1
      have h1 : (s (k + 1) :: (List.range' (k + 2) m').map s) ++ [last] =
          ((List.range' (k + 1) (m' + 1)).map s) ++ [last] := by
        rw [List.range'_succ, List.map_cons]
      rw [h1, ih (k + 1)]
      rw [List.range'_succ]
      apply List.map_congr_left
      intro j hj
      have : k + 1 + (m' + 1) = k + (m' + 1 + 1) := by omega
      rw [this]

theorem countP_lt_sub (dataq : List ℚ) (u v : ℚ) (huv : u ≤ v) :
    (dataq.countP (fun x => x < v) : ℤ) - (dataq.countP (fun x => x < u) : ℤ) =
      (dataq.countP (fun x => u ≤ x && x < v) : ℤ) := by
  induction dataq with
  | nil => rfl
  | cons x l ih =>
    by_cases h1 : x < u
    · have h2 : x < v := lt_of_lt_of_le h1 huv
      have h3 : ¬ u ≤ x := not_le.mpr h1
      simp [List.countP_cons, h1, h2, h3]
      omega
    · by_cases h2 : x < v
      · have h3 : u ≤ x := not_lt.mp h1
        simp [List.countP_cons, h1, h2, h3]
        omega
      · have h3 : u ≤ x := not_lt.mp h1
        simp [List.countP_cons, h1, h2, h3]
        omega

theorem countP_ge_last (dataq : List ℚ) (u : ℚ) :
    (dataq.length : ℤ) - (dataq.countP (fun x => x < u) : ℤ) =
      (dataq.countP (fun x => u ≤ x) : ℤ) := by
  induction dataq with
  | nil => rfl
  | cons x l ih =>
    by_cases h1 : x < u
    · have h2 : ¬ u ≤ x := not_le.mpr h1
      simp [List.countP_cons, h1, h2]
      omega
    · have h2 : u ≤ x := not_lt.mp h1
      simp [List.countP_cons, h1, h2]
      omega

theorem npArgmax_spec (lc : List ℤ) (hne : lc ≠ []) :
    npArgmax lc < lc.length ∧
    (∀ i < lc.length, lc.getD i 0 ≤ lc.getD (npArgmax lc) 0) ∧
    (∀ i < npArgmax lc, lc.getD i 0 < lc.getD (npArgmax lc) 0) := by
  induction lc with
  | nil => exact absurd rfl hne
  | cons x xs ih =>
    by_cases hxs : xs = []
    · subst hxs
      refine ⟨by simp [npArgmax], ?_, ?_⟩
      · intro i hi
        rw [List.length_cons, List.length_nil] at hi
        cases i with
        | zero => simp [npArgmax]
        | succ i' => omega
      · intro i hi
        simp [npArgmax] at hi
    · obtain ⟨ih1, ih2, ih3⟩ := ih hxs
      have hj : xs.getD (npArgmax xs) x = xs.getD (npArgmax xs) 0 := by
        rw [List.getD_eq_getElem xs x ih1, List.getD_eq_getElem xs 0 ih1]
      have hdef : npArgmax (x :: xs) =
          (if x < xs.getD (npArgmax xs) x then npArgmax xs + 1 else 0) := rfl
      by_cases hlt : x < xs.getD (npArgmax xs) x
      · rw [hdef, if_pos hlt]
        refine ⟨?_, ?_, ?_⟩
        · rw [List.length_cons]; omega
        · intro i hi
          cases i with
          | zero =>
            rw [List.getD_cons_zero, List.getD_cons_succ]
            rw [hj] at hlt
            exact hlt.le
          | succ i' =>
            rw [List.getD_cons_succ, List.getD_cons_succ]
            rw [List.length_cons] at hi
            exact ih2 i' (by omega)
        · intro i hi
          cases i with
          | zero =>
            rw [List.getD_cons_zero, List.getD_cons_succ]
            rw [hj] at hlt
            exact hlt
          | succ i' =>
            rw [List.getD_cons_succ, List.getD_cons_succ]
            exact ih3 i' (by omega)
      · rw [hdef, if_neg hlt]
        refine ⟨?_, ?_, ?_⟩
        · rw [List.length_cons]; omega
        · intro i hi
          cases i with
          | zero => exact le_refl _
          | succ i' =>
            rw [List.getD_cons_zero, List.getD_cons_succ]
            rw [List.length_cons] at hi
            calc xs.getD i' 0 ≤ xs.getD (npArgmax xs) 0 := ih2 i' (by omega)
              _ = xs.getD (npArgmax xs) x := hj.symm
              _ ≤ x := not_lt.mp hlt
        · intro i hi
          exact absurd hi (Nat.not_lt_zero i)

/-- The claim's tie rule: the least bin index attaining the maximal count. -/
def leastArgmax (lc : List ℤ) : ℕ :=
  ((List.range lc.length).filter
    (fun j => (List.range lc.length).all (fun i => lc.getD i 0 ≤ lc.getD j 0))).headD 0

theorem npArgmax_eq_leastArgmax (lc : List ℤ) : npArgmax lc = leastArgmax lc := by
  by_cases hne : lc = []
  · subst hne; rfl
  · obtain ⟨h1, h2, h3⟩ := npArgmax_spec lc hne
    have hFsorted : List.Sorted (· < ·) ((List.range lc.length).filter
        (fun j => (List.range lc.length).all (fun i => lc.getD i 0 ≤ lc.getD j 0))) :=
      List.Pairwise.filter _ (List.sorted_lt_range _)
    have hmemF : npArgmax lc ∈ (List.range lc.length).filter
        (fun j => (List.range lc.length).all (fun i => lc.getD i 0 ≤ lc.getD j 0)) := by
      rw [List.mem_filter]
      refine ⟨List.mem_range.mpr h1, ?_⟩
      rw [List.all_eq_true]
      intro i hi
      exact decide_eq_true (h2 i (List.mem_range.mp hi))
    cases hFl : (List.range lc.length).filter
        (fun j => (List.range lc.length).all (fun i => lc.getD i 0 ≤ lc.getD j 0)) with
    | nil => rw [hFl] at hmemF; exact absurd hmemF (List.not_mem_nil _)
    | cons a t =>
      have hla : leastArgmax lc = a := by unfold leastArgmax; rw [hFl]; rfl
      have haF : a ∈ (List.range lc.length).filter
          (fun j => (List.range lc.length).all (fun i => lc.getD i 0 ≤ lc.getD j 0)) := by
        rw [hFl]; exact List.mem_cons_self a t
      rw [List.mem_filter, List.all_eq_true] at haF
      obtain ⟨haRange, haP⟩ := haF
      have haMax : ∀ i < lc.length, lc.getD i 0 ≤ lc.getD a 0 := fun i hi =>
        of_decide_eq_true (haP i (List.mem_range.mpr hi))
      rw [hFl] at hFsorted hmemF
      have hle : a ≤ npArgmax lc := by
        rcases List.mem_cons.mp hmemF with h | h
        · omega
        · exact (List.rel_of_sorted_cons hFsorted _ h).le
      have hge : npArgmax lc ≤ a := by
        by_contra hcon
        push_neg at hcon
        have hc1 := h3 a hcon
        have hc2 := haMax (npArgmax lc) h1
        omega
      rw [hla]; omega

/-- The k-th bin's occupancy as the claim describes it: the number of sample
values in `[lower + k*w, lower + (k+1)*w)`, the final bin collecting
everything from its left edge up. -/
def binCount (data : List ℚ) (mn w : ℚ) (nbins k : ℕ) : ℤ :=
  if k + 1 = nbins then (data.countP (fun x => mn + (k : ℚ) * w ≤ x) : ℤ)
  else (data.countP (fun x => mn + (k : ℚ) * w ≤ x && x < mn + ((k + 1 : ℕ) : ℚ) * w) : ℤ)

theorem ahist_spec (data : List ℚ) (nbins : ℕ) (mn mx : ℚ)
    (hmn : mn = (npSort data).getD (data.length - 99 * data.length / 100) 0)
    (hmx : mx = (npSort data).getD (data.length - max 1 (data.length / 100)) 0)
    (hn : 1 ≤ nbins) (hlt : mn < mx) :
    ahist data (nbins : ℚ) =
      ((List.range nbins).map (fun k => binCount data mn ((mx - mn) / (nbins : ℚ)) nbins k),
        (mx - mn) / (nbins : ℚ), mn) := by
  have hnb : ((nbins : ℚ)) ≠ 0 := by exact_mod_cast Nat.pos_iff_ne_zero.mp (by omega)
  have hsub : mx - mn ≠ 0 := by linarith
  have hw : (0 : ℚ) < (mx - mn) / (nbins : ℚ) := by
    apply div_pos (by linarith)
    exact_mod_cast Nat.pos_of_ne_zero (by exact_mod_cast hnb)
  have harange : npArange mn mx ((mx - mn) / (nbins : ℚ)) =
      (List.range nbins).map (fun k : ℕ => mn + (k : ℚ) * ((mx - mn) / (nbins : ℚ))) := by
    unfold npArange
    rw [if_pos hw]
    have hq : (mx - mn) / ((mx - mn) / (nbins : ℚ)) = (nbins : ℚ) := by field_simp
    rw [hq, Int.ceil_natCast, Int.toNat_natCast]
  unfold ahist
  dsimp only
  rw [← hmn, ← hmx, harange, List.map_map, zip_tail_diff, List.range_eq_range',
    diffs_map_append]
  have hcnt : ∀ p : ℚ → Bool, (npSort data).countP p = data.countP p := fun p =>
    List.Perm.countP_eq p (List.perm_insertionSort (· ≤ ·) data)
  simp only [Prod.mk.injEq, and_true]
  apply List.map_congr_left
  intro j hj
  rw [List.mem_range'_1] at hj
  have hjlt : j < nbins := by omega
  dsimp only [Function.comp]
  by_cases hend : j + 1 = nbins
  · rw [if_pos (by omega), binCount, if_pos hend]
    unfold searchsorted
    rw [hcnt]
    exact countP_ge_last data _
  · rw [if_neg (by omega), binCount, if_neg hend]
    unfold searchsorted
    rw [hcnt, hcnt]
    apply countP_lt_sub
    have : ((j : ℚ)) ≤ ((j + 1 : ℕ) : ℚ) := by exact_mod_cast Nat.le_succ j
    nlinarith [hw.le]

/-- The Histogram-Mode estimator as the claim words it: percentile bounds read
off the sorted sample at the floor-division indices, bin width
`(upper - lower) / nbins`, per-bin occupancy counts, first and last count
zeroed, and the least maximal-count bin index times the width plus the lower
bound. -/
def histModeClaim (data : List ℚ) (nbins : ℕ) : ℚ :=
  let b := npSort data
  let len := data.length
  let upper := b.getD (len - max 1 (len / 100)) 0
  let lower := b.getD (len - 99 * len / 100) 0
  let w := (upper - lower) / (nbins : ℚ)
  let counts := (List.range nbins).map (fun k => binCount data lower w nbins k)
  let countsZ := (counts.set 0 0).set (nbins - 1) 0
  (leastArgmax countsZ : ℚ) * w + lower

/-- C4: for a non-degenerate sample (at least two elements, strictly separated
percentile bounds) and positive integer bin count, the Histogram-Mode
estimator returns `argmax_index * bin_width + lower`, with `lower`/`upper` the
sorted-sample values at floor-division indices `len - 99*len/100` and
`len - max(1, len/100)`, `bin_width = (upper - lower)/nbins`, the first and
last bin counts zeroed before the argmax, and ties for the maximal count
resolved to the lowest bin index. -/
theorem C4_histMode_spec (data : List ℚ) (nbins : ℕ) (hn : 1 ≤ nbins)
    (hlen : 2 ≤ data.length)
    (hlt : (npSort data).getD (data.length - 99 * data.length / 100) 0 <
      (npSort data).getD (data.length - max 1 (data.length / 100)) 0) :
    histMode data (nbins : ℚ) = histModeClaim data nbins := by
  unfold histMode stats histModeClaim
  dsimp only
  set mn := (npSort data).getD (data.length - 99 * data.length / 100) 0 with hmn
  set mx := (npSort data).getD (data.length - max 1 (data.length / 100)) 0 with hmx
  rw [ahist_spec data nbins mn mx hmn hmx hn hlt]
  dsimp only
  rw [List.length_map, List.length_range]
  have hswap : ((((List.range nbins).map
        (fun k => binCount data mn ((mx - mn) / (nbins : ℚ)) nbins k)).set
          (nbins - 1) 0).set 0 0) =
      ((((List.range nbins).map
        (fun k => binCount data mn ((mx - mn) / (nbins : ℚ)) nbins k)).set 0 0).set
          (nbins - 1) 0) := by
    by_cases h : nbins - 1 = 0
    · rw [h]
    · exact List.set_comm 0 0 _ h
  rw [hswap, npArgmax_eq_leastArgmax]

/-- Witness for C4 on the sample `[0, 1, 2, 3]` with `nbins = 2`. -/
theorem C4_histMode_spec_witness :
    histMode [0, 1, 2, 3] ((2 : ℕ) : ℚ) = histModeClaim [0, 1, 2, 3] 2 := by
  apply C4_histMode_spec [0, 1, 2, 3] 2 (by norm_num) (by norm_num)
  norm_num [npSort, List.insertionSort, List.orderedInsert, List.getD]
